import Mathlib

/-!
Verification of the resource-resolution and change-watch engine of the
`thisismy` command-line tool (repository `franzenzenhofer/thisismy`).

The repository contains several successive drafts of the same program:
`src/thisismy.js` (the draft with the single-exact-file bypass) and the
v1.4.0 draft in `src/unnamed/part_003` (the draft with the `ignore`-package
based filtering, the size limit, and the URL pass-through set).  The
definitions below are a shallow embedding of both drafts.  Filesystem,
glob-library and network effects are modelled by an explicit environment
record; JavaScript strings are modelled by Lean `String` with the handful
of JS string primitives (`includes`, `startsWith`, `trim`, `toLowerCase`,
`split`) re-implemented over the character list.
-/

set_option maxRecDepth 4000

namespace Thisismy

/-! ## JS string primitives -/

/-- Character-list prefix test (JS `String.prototype.startsWith`). -/
def isPre : List Char → List Char → Bool
  | [], _ => true
  | _ :: _, [] => false
  | a :: as, b :: bs => a == b && isPre as bs

/-- Character-list substring test (JS `String.prototype.includes`). -/
def listHasSub (needle : List Char) : List Char → Bool
  | [] => isPre needle []
  | c :: rest => isPre needle (c :: rest) || listHasSub needle rest

/-- JS `s.startsWith(pre)`. -/
def strStartsWithStr (pre s : String) : Bool := isPre pre.data s.data

/-- JS `s.includes(sub)`. -/
def strHasSubstr (sub s : String) : Bool := listHasSub sub.data s.data

/-- JS `s.includes(c)` for a single character. -/
def strHasChar (c : Char) (s : String) : Bool := s.data.any (· == c)

/-- JS `s.toLowerCase()` (ASCII range, which is all the tool compares). -/
def strToLower (s : String) : String := String.mk (s.data.map Char.toLower)

/-- JS `s.trim()`. -/
def strTrim (s : String) : String :=
  String.mk (((s.data.dropWhile Char.isWhitespace).reverse.dropWhile Char.isWhitespace).reverse)

/-- JS `s.slice(n)`. -/
def strDropN (n : Nat) (s : String) : String := String.mk (s.data.drop n)

/-- Split a character list on a separator character (JS `s.split(sep)` for
the one-character separators this program uses). -/
def splitOnChar (c : Char) : List Char → List (List Char)
  | [] => [[]]
  | a :: rest =>
    if a = c then [] :: splitOnChar c rest
    else
      match splitOnChar c rest with
      | [] => [[a]]
      | g :: gs => (a :: g) :: gs

/-- JS `s.split(sep)` for a one-character separator. -/
def strSplitChar (c : Char) (s : String) : List String :=
  (splitOnChar c s.data).map String.mk

/-- Join segments with `/` (the inverse of splitting on `/`). -/
def joinSegsGo : List String → List Char
  | [] => []
  | [s] => s.data
  | s :: rest => s.data ++ '/' :: joinSegsGo rest

/-- Join segments with `/`. -/
def joinSegs (l : List String) : String := String.mk (joinSegsGo l)

/-! ## SHA-256, the digest behind `hashContent`
(`crypto.createHash('sha256').update(str).digest('hex')` in the source;
the Node `crypto` library computes standard SHA-256 over the UTF-8 bytes). -/

/-- UTF-8 encoding of one code point. -/
def utf8Bytes (n : Nat) : List Nat :=
  if n < 128 then [n]
  else if n < 2048 then [192 + n / 64, 128 + n % 64]
  else if n < 65536 then [224 + n / 4096, 128 + n / 64 % 64, 128 + n % 64]
  else [240 + n / 262144, 128 + n / 4096 % 64, 128 + n / 64 % 64, 128 + n % 64]

/-- UTF-8 bytes of a string (what `hash.update(str)` digests). -/
def strBytes (s : String) : List Nat := (s.data.map (fun c => utf8Bytes c.toNat)).flatten

def wordMod (x : Nat) : Nat := x % 4294967296

def rotr (n x : Nat) : Nat := wordMod (x / 2 ^ n + x % 2 ^ n * 2 ^ (32 - n))

def shr (n x : Nat) : Nat := x / 2 ^ n

def bnot32 (x : Nat) : Nat := Nat.xor x 4294967295

def xor3 (a b c : Nat) : Nat := Nat.xor (Nat.xor a b) c

def chFn (x y z : Nat) : Nat := Nat.xor (Nat.land x y) (Nat.land (bnot32 x) z)

def majFn (x y z : Nat) : Nat :=
  Nat.xor (Nat.xor (Nat.land x y) (Nat.land x z)) (Nat.land y z)

def bigSigma0 (x : Nat) : Nat := xor3 (rotr 2 x) (rotr 13 x) (rotr 22 x)

def bigSigma1 (x : Nat) : Nat := xor3 (rotr 6 x) (rotr 11 x) (rotr 25 x)

def smallSigma0 (x : Nat) : Nat := xor3 (rotr 7 x) (rotr 18 x) (shr 3 x)

def smallSigma1 (x : Nat) : Nat := xor3 (rotr 17 x) (rotr 19 x) (shr 10 x)

/-- SHA-256 round constants (decimal form of the standard table). -/
def sha256K : List Nat :=
  [1116352408, 1899447441, 3049323471, 3921009573, 961987163, 1508970993,
   2453635748, 2870763221, 3624381080, 310598401, 607225278, 1426881987,
   1925078388, 2162078206, 2614888103, 3248222580, 3835390401, 4022224774,
   264347078, 604807628, 770255983, 1249150122, 1555081692, 1996064986,
   2554220882, 2821834349, 2952996808, 3210313671, 3336571891, 3584528711,
   113926993, 338241895, 666307205, 773529912, 1294757372, 1396182291,
   1695183700, 1986661051, 2177026350, 2456956037, 2730485921, 2820302411,
   3259730800, 3345764771, 3516065817, 3600352804, 4094571909, 275423344,
   430227734, 506948616, 659060556, 883997877, 958139571, 1322822218,
   1537002063, 1747873779, 1955562222, 2024104815, 2227730452, 2361852424,
   2428436474, 2756734187, 3204031479, 3329325298]

/-- SHA-256 initial hash state (decimal form of the standard table). -/
def sha256H0 : List Nat :=
  [1779033703, 3144134277, 1013904242, 2773480762, 1359893119, 2600822924,
   528734635, 1541459225]

/-- Message padding: a `0x80` byte, zeros to 56 mod 64, then the 64-bit
big-endian bit length. -/
def padMessage (msg : List Nat) : List Nat :=
  let L := msg.length
  let r := (L + 1) % 64
  let k := (56 + 64 - r) % 64
  let lenBytes := (List.range 8).map (fun i => L * 8 / 2 ^ (8 * (7 - i)) % 256)
  msg ++ [128] ++ List.replicate k 0 ++ lenBytes

/-- Split a byte list into 64-byte blocks; the first argument is structural
fuel (the list length suffices). -/
def toBlocksFuel : Nat → List Nat → List (List Nat)
  | 0, _ => []
  | _ + 1, [] => []
  | n + 1, c :: rest => ((c :: rest).take 64) :: toBlocksFuel n ((c :: rest).drop 64)

/-- Split the padded message into 64-byte blocks. -/
def toBlocks (l : List Nat) : List (List Nat) := toBlocksFuel l.length l

/-- The 16 big-endian 32-bit words of one block. -/
def blockWords (block : List Nat) : List Nat :=
  (List.range 16).map (fun i =>
    block.getD (4 * i) 0 * 16777216 + block.getD (4 * i + 1) 0 * 65536 +
    block.getD (4 * i + 2) 0 * 256 + block.getD (4 * i + 3) 0)

/-- Extend the 16-word schedule to 64 words. -/
def extendW (w : List Nat) : List Nat :=
  (List.range 48).foldl
    (fun w _ =>
      w ++ [wordMod (smallSigma1 (w.getD (w.length - 2) 0) + w.getD (w.length - 7) 0 +
        smallSigma0 (w.getD (w.length - 15) 0) + w.getD (w.length - 16) 0)])
    w

/-- One compression round. -/
def sha256Round (st : List Nat) (kw : Nat × Nat) : List Nat :=
  let a := st.getD 0 0
  let b := st.getD 1 0
  let c := st.getD 2 0
  let d := st.getD 3 0
  let e := st.getD 4 0
  let f := st.getD 5 0
  let g := st.getD 6 0
  let h := st.getD 7 0
  let t1 := wordMod (h + bigSigma1 e + chFn e f g + kw.1 + kw.2)
  let t2 := wordMod (bigSigma0 a + majFn a b c)
  [wordMod (t1 + t2), a, b, c, wordMod (d + t1), e, f, g]

/-- Compress one 64-byte block into the running state. -/
def compressBlock (H : List Nat) (block : List Nat) : List Nat :=
  let W := extendW (blockWords block)
  let st := (sha256K.zip W).foldl sha256Round H
  (H.zip st).map (fun p => wordMod (p.1 + p.2))

/-- The eight 32-bit words of the SHA-256 digest of a byte sequence. -/
def sha256Words (msg : List Nat) : List Nat :=
  (toBlocks (padMessage msg)).foldl compressBlock sha256H0

def hexDigit (n : Nat) : Char := if n < 10 then Char.ofNat (48 + n) else Char.ofNat (87 + n)

def wordHex (w : Nat) : List Char := (List.range 8).map (fun i => hexDigit (w / 16 ^ (7 - i) % 16))

/-- Lowercase hex SHA-256 digest of a string, as Node's
`createHash('sha256').update(s).digest('hex')` returns it. -/
def sha256hex (s : String) : String :=
  String.mk (((sha256Words (strBytes s)).map wordHex).flatten)

/-- `hashContent` (src/thisismy.js lines 472-474; identically in the v1.4.0
draft): `crypto.createHash('sha256').update(str || '').digest('hex')`.  The
`str || ''` coercion is the identity on actual strings, since our model
always passes a string. -/
def hashContent (s : String) : String := sha256hex s

/-! ## Environment: filesystem, glob library and ignore files

Effects of `fs`, `path` and the `glob` library are modelled by an explicit
record.  `globSync pattern dot ignoreOption` stands for
`globSync(pattern, { dot, ignore: ignoreOption })`; `lstatIsFile p` is
`fs.lstatSync(p).isFile()` with `none` for a thrown error; `statSize p` is
`fs.statSync(p).size` with `none` for a thrown error. -/

structure Env where
  globSync : String → Bool → List String → List String
  existsSync : String → Bool
  lstatIsFile : String → Option Bool
  statSize : String → Option Nat
  cwd : String
  thisismyignore : Option String
  gitignore : Option String

/-- The option bag fields the resolution and watch engine reads. -/
structure Options where
  file : List String
  greedy : Bool := false
  recursive : Bool := false
  silent : Bool := false
  watch : Bool := false
  limit : Option String := none

/-! ## Node `path` (posix) -/

/-- Path segments, dropping empty segments and `.` (as `path.resolve`
normalization does). -/
def splitSegs (p : String) : List String :=
  (strSplitChar '/' p).filter (fun s => s ≠ "" && s ≠ ".")

/-- Process `..` segments against an absolute segment stack. -/
def normalizeSegs (segs : List String) : List String :=
  segs.foldl (fun acc s => if s = ".." then acc.dropLast else acc ++ [s]) []

/-- Segment list of `path.resolve(cwd, p)` (posix). -/
def pathResolveSegs (cwd p : String) : List String :=
  if strStartsWithStr "/" p then normalizeSegs (splitSegs p)
  else normalizeSegs (splitSegs cwd ++ splitSegs p)

def commonPrefixLen : List String → List String → Nat
  | a :: as, b :: bs => if a = b then commonPrefixLen as bs + 1 else 0
  | _, _ => 0

/-- `path.relative(cwd, p)` (posix): resolve both, strip the common segment
prefix, climb with `..` and descend with the remainder.  Note this collapses
repeated separators, so it rewrites a URL such as `https://example.com` to
`https:/example.com`. -/
def pathRelative (cwd p : String) : String :=
  let f := pathResolveSegs cwd cwd
  let t := pathResolveSegs cwd p
  let k := commonPrefixLen f t
  joinSegs (List.replicate (f.length - k) ".." ++ t.drop k)

/-- `path.dirname` (posix) restricted to the relative paths this program
feeds it: everything before the last separator, or `.` when there is none. -/
def pathDirname (p : String) : String :=
  let segs := strSplitChar '/' p
  if segs.length ≤ 1 then "." else joinSegs segs.dropLast

/-! ## The `ignore` npm package (gitignore matching)

The drafts delegate rule matching to the external `ignore` dependency,
which implements the gitignore specification: rules apply in order, a rule
written with a leading `!` re-includes, the last matching rule wins, a
pattern without a separator matches a path component at any depth, and an
anchored pattern also matches everything below a matched directory. -/

structure IgnoreRule where
  negated : Bool
  pattern : String
deriving DecidableEq

/-- Glob match of one pattern component against one path component
(`*` and `?` wildcards; `*` does not cross a separator because components
are matched separately). -/
def segMatchFuel : Nat → List Char → List Char → Bool
  | 0, _, _ => false
  | _ + 1, [], [] => true
  | f + 1, '*' :: ps, [] => segMatchFuel f ps []
  | f + 1, '*' :: ps, c :: cs => segMatchFuel f ps (c :: cs) || segMatchFuel f ('*' :: ps) cs
  | f + 1, '?' :: ps, _ :: cs => segMatchFuel f ps cs
  | _ + 1, _ :: _, [] => false
  | _ + 1, [], _ :: _ => false
  | f + 1, p :: ps, c :: cs => p == c && segMatchFuel f ps cs

def segMatch (ps cs : List Char) : Bool :=
  segMatchFuel (ps.length + cs.length + 1) ps cs

/-- Anchored match of pattern components against a prefix of the path
components; `**` spans any number of components. -/
def segsMatchFuel : Nat → List String → List String → Bool
  | 0, _, _ => false
  | _ + 1, [], _ => true
  | f + 1, "**" :: ps, ss =>
    segsMatchFuel f ps ss ||
      (match ss with
       | [] => false
       | _ :: ss2 => segsMatchFuel f ("**" :: ps) ss2)
  | _ + 1, _ :: _, [] => false
  | f + 1, p :: ps, s :: ss => segMatch p.data s.data && segsMatchFuel f ps ss

def segsMatch (ps ss : List String) : Bool :=
  segsMatchFuel (ps.length + ss.length + 1) ps ss

/-- Whether one gitignore pattern matches a relative path. -/
def ruleMatches (pat : String) (pathStr : String) : Bool :=
  let ssegs := strSplitChar '/' pathStr
  if strHasChar '/' pat then segsMatch (strSplitChar '/' pat) ssegs
  else ssegs.any (fun s => segMatch pat.data s.data)

/-- `ig.ignores(path)`: the last matching rule decides; no match means not
ignored. -/
def igIgnores (rules : List IgnoreRule) (p : String) : Bool :=
  rules.foldl (fun acc r => if ruleMatches r.pattern p then !r.negated else acc) false

/-- One line of an ignore file as a rule: blank lines and `#` comments are
dropped, a leading `!` negates. -/
def parseIgnoreRule (line : String) : Option IgnoreRule :=
  if line = "" || strStartsWithStr "#" line then none
  else if strStartsWithStr "!" line then some ⟨true, strDropN 1 line⟩
  else some ⟨false, line⟩

/-- `ig.add` on a list of pattern lines. -/
def parseIgnoreRules (lines : List String) : List IgnoreRule :=
  lines.filterMap parseIgnoreRule

/-- `ig.add` on the text of an ignore file (split on newlines). -/
def parseIgnoreText (text : String) : List IgnoreRule :=
  parseIgnoreRules (strSplitChar '\n' text)

/-! ## Default ignore tables of the two drafts -/

/-- `defaultBinaryExtensions` (src/thisismy.js line 20). -/
def defaultBinaryExtensions : List String :=
  [".png", ".jpg", ".jpeg", ".gif", ".pdf", ".zip", ".rar", ".7z", ".exe", ".dll",
   ".bin", ".mp4", ".mp3", ".wav", ".mov", ".avi"]

/-- `defaultIgnores` (src/thisismy.js lines 21-27). -/
def defaultIgnores : List String :=
  ["node_modules/**", "package-lock.json", ".*", "**/.*"] ++
    defaultBinaryExtensions.map (fun ext => "*" ++ ext)

/-- `extendedBinaryExtensions` of the v1.4.0 draft (src/unnamed/part_003
lines 30-69). -/
def extendedBinaryExtensions : List String :=
  [".png", ".jpg", ".jpeg", ".gif", ".bmp", ".tiff", ".webp", ".ico", ".heic",
   ".raw", ".psd", ".ai", ".eps", ".indd", ".cr2", ".nef", ".arw", ".dng", ".orf",
   ".pcx", ".tga", ".icns", ".jxr", ".wdp", ".hdp", ".jng", ".xcf", ".pgm", ".pbm",
   ".pdf", ".doc", ".docx", ".ppt", ".pptx", ".xls", ".xlsx", ".odt", ".ods", ".odp",
   ".pages", ".numbers", ".key", ".pub", ".one", ".mpp", ".vsd", ".vsdx", ".wp", ".wpd",
   ".zip", ".rar", ".7z", ".gz", ".bz2", ".tar", ".xz", ".tgz", ".dmg", ".iso",
   ".cab", ".bz", ".tbz", ".tbz2", ".lz", ".rz", ".lzma", ".tlz", ".txz", ".sit",
   ".mp3", ".mp4", ".wav", ".aac", ".m4a", ".ogg", ".flac", ".wma", ".mov", ".avi",
   ".mkv", ".flv", ".webm", ".vob", ".wmv", ".mpg", ".mpeg", ".m4v", ".3gp",
   ".m2ts", ".mts", ".qt", ".rm", ".rmvb", ".asf", ".divx", ".m2v", ".ogv", ".dv",
   ".exe", ".dll", ".so", ".dylib", ".bin", ".apk", ".ipa", ".app", ".msi", ".deb",
   ".rpm", ".pkg", ".pyc", ".pyo", ".pyd", ".o", ".ko", ".sys", ".cpl", ".drv",
   ".framework", ".bundle", ".xpi", ".crx", ".plugin", ".air", ".appx", ".snap",
   ".ttf", ".otf", ".woff", ".woff2", ".eot", ".pfm", ".pfb", ".pcf",
   ".fon", ".tfm",
   ".bak", ".pyc", ".pyo", ".o", ".obj", ".lib", ".a", ".class", ".jar",
   ".dat", ".db", ".sqlite", ".mdb", ".accdb", ".ldf", ".mdf", ".ndf", ".frm", ".ibd",
   ".sav", ".gho", ".wim", ".qcow", ".vdi", ".vmdk", ".hdd",
   ".sketch", ".fig", ".xd", ".blend", ".c4d", ".max", ".mb", ".ma", ".hip", ".hda",
   ".zbr", ".zpr", ".stl", ".obj", ".fbx", ".dae", ".3ds", ".dwg", ".dxf", ".skp",
   ".cache", ".idx", ".pack", ".sqlite3", ".myd", ".myi", ".gdb", ".fdb"]

/-- `defaultIgnores` of the v1.4.0 draft (src/unnamed/part_003 lines 71-77). -/
def defaultIgnoresV14 : List String :=
  ["node_modules/**", "package-lock.json", ".*", "**/.*"] ++
    extendedBinaryExtensions.map (fun ext => "*" ++ ext)

/-! ## Shared resolution pieces -/

/-- The recursive-search pattern rewrite shared by every draft
(src/thisismy.js lines 524-531; src/unnamed/part_003 lines 569-575):
when `-r` is set and the pattern holds no `**`, prepend `**/`, except that a
`./`-prefixed pattern gets the marker inserted after the `./`. -/
def rewritePattern (recursive : Bool) (pattern : String) : String :=
  if recursive && !(strHasSubstr "**" pattern) then
    if strStartsWithStr "./" pattern then "./**/" ++ strDropN 2 pattern
    else if strStartsWithStr "**/" pattern then pattern
    else "**/" ++ pattern
  else pattern

/-- Append-if-absent, the order-preserving effect of adding to a JS `Set`. -/
def insertUniq (l : List String) (x : String) : List String :=
  if x ∈ l then l else l ++ [x]

/-- First-occurrence deduplication, the effect of `[...new Set(list)]`. -/
def dedupFirst (l : List String) : List String := l.foldl insertUniq []

/-- The lines contributed by `.thisismyignore`, else `.gitignore`, else
nothing (the priority used by every draft). -/
def ignoreFileText (env : Env) : Option String :=
  match env.thisismyignore with
  | some c => some c
  | none => env.gitignore

/-! ## `resolveResources` of src/thisismy.js (lines 483-569) -/

structure ResolveV1Result where
  finalResources : List String
  isSingleExactFile : Bool
  directoriesScanned : List String
deriving DecidableEq

/-- Shallow embedding of `resolveResources` from src/thisismy.js: a single
wildcard-free non-URL token is an exact reference answered directly from
`fs.existsSync` without consulting any ignore rule; otherwise every token is
globbed (URLs pushed through), the union deduplicated, relativized against
the working directory, and filtered to paths whose `lstat` reports a regular
file. -/
def resolveResourcesV1 (env : Env) (options : Options) : ResolveV1Result :=
  let inputPaths := options.file
  let hasWildcard := inputPaths.any (fun p => strHasChar '*' p)
  let multipleFiles := decide (inputPaths.length > 1)
  let isSingleExactFile :=
    !multipleFiles && !hasWildcard && decide (inputPaths.length = 1) &&
      (match inputPaths.head? with
       | some p => !strStartsWithStr "http" p
       | none => false)
  if isSingleExactFile && !options.greedy then
    match inputPaths.head? with
    | some singleFile =>
      if env.existsSync singleFile || strStartsWithStr "http" singleFile then
        ⟨[singleFile], true, []⟩
      else ⟨[], true, []⟩
    | none => ⟨[], true, []⟩
  else
    let ignorePatterns :=
      (if !options.greedy then defaultIgnores else []) ++
        (match ignoreFileText env with
         | some text => strSplitChar '\n' text
         | none => [])
    let collected := inputPaths.foldl
      (fun acc pth =>
        if strStartsWithStr "http" pth then acc ++ [pth]
        else acc ++ env.globSync (rewritePattern options.recursive pth) options.greedy ignorePatterns)
      []
    let relativized := (dedupFirst collected).map (fun f => pathRelative env.cwd f)
    let files := relativized.filter (fun f => env.lstatIsFile f == some true)
    ⟨files, false, dedupFirst (files.map pathDirname)⟩

/-! ## `resolveResources` of the v1.4.0 draft (src/unnamed/part_003 lines 535-630) -/

/-- The thinned pattern list handed to `globSync` by the v1.4.0 draft
(`defaultIgnores.filter(p => p.includes('node_modules') ||
p.includes('**/.*') || p.startsWith('.*'))`). -/
def globIgnorePatternsV14 : List String :=
  defaultIgnoresV14.filter (fun p =>
    strHasSubstr "node_modules" p || strHasSubstr "**/.*" p || strStartsWithStr ".*" p)

/-- The rule set loaded into the `ignore` instance by the v1.4.0 draft:
nothing when greedy, else the extended defaults followed by the lines of
`.thisismyignore` or `.gitignore`. -/
def igRulesV14 (env : Env) (greedy : Bool) : List IgnoreRule :=
  if greedy then []
  else
    parseIgnoreRules defaultIgnoresV14 ++
      (match ignoreFileText env with
       | some text => parseIgnoreText text
       | none => [])

structure ResolveV14Result where
  finalResources : List String
  ignoredFiles : List String
  directoriesScanned : List String
deriving DecidableEq

/-- One step of the v1.4.0 result loop over the unique glob matches: skip an
empty relative path, divert ignored paths to the diagnostic list, and admit
a path only when `lstat` reports a regular file (a thrown `lstat` drops the
path silently).  The accumulator mirrors the draft's
(`finalResources` set, `allIgnoredFiles`, `directoriesScanned` set). -/
def v14Step (env : Env) (greedy : Bool) (rules : List IgnoreRule)
    (acc : List String × List String × List String) (p : String) :
    List String × List String × List String :=
  let rel := pathRelative env.cwd p
  if rel = "" then acc
  else if !greedy && igIgnores rules rel then (acc.1, acc.2.1 ++ [rel], acc.2.2)
  else
    match env.lstatIsFile p with
    | some true =>
      let d := pathDirname rel
      (insertUniq acc.1 rel, acc.2.1,
        insertUniq acc.2.2 (if d ≠ "" && d ≠ "." then d else "."))
    | _ => acc

/-- Shallow embedding of the v1.4.0 `resolveResources`: URLs are collected
apart and seed the result set; every other token is (optionally rewritten
and) globbed with `dot: true`; the unique matches are relativized and then
filtered first by the `ignore` rules and then by `lstat`. -/
def resolveResourcesV14 (env : Env) (options : Options) : ResolveV14Result :=
  let rules := igRulesV14 env options.greedy
  let gip := if options.greedy then [] else globIgnorePatternsV14
  let collected := options.file.foldl
    (fun (acc : List String × List String) pattern =>
      if strStartsWithStr "http" pattern then (acc.1 ++ [pattern], acc.2)
      else (acc.1, acc.2 ++ env.globSync (rewritePattern options.recursive pattern) true gip))
    ([], [])
  let uniqueMatched := dedupFirst collected.2
  let folded := uniqueMatched.foldl (v14Step env options.greedy rules) (dedupFirst collected.1, [], [])
  ⟨folded.1, folded.2.1, folded.2.2⟩

/-! ## Size limit of the v1.4.0 draft -/

/-- Decimal value of a digit list. -/
def digitsToNat (l : List Char) : Nat := l.foldl (fun a c => a * 10 + (c.toNat - 48)) 0

/-- Unit suffix of a size expression: nothing defaults to megabytes. -/
def parseSizeUnit : List Char → Option Nat
  | [] => some 1048576
  | ['k', 'b'] => some 1024
  | ['m', 'b'] => some 1048576
  | _ => none

/-- The regular expression `^(\d+(?:\.\d+)?)(kb|mb)?$` (case-insensitive) of
`parseSizeLimit`, returned as numerator, denominator and unit multiplier of
the rational size value. -/
def parseSizeExpr (s : String) : Option (Nat × Nat × Nat) :=
  let l := (strToLower s).data
  let d1 := l.takeWhile Char.isDigit
  let r1 := l.dropWhile Char.isDigit
  if d1.isEmpty then none
  else
    match r1 with
    | '.' :: r =>
      let d2 := r.takeWhile Char.isDigit
      let r2 := r.dropWhile Char.isDigit
      if d2.isEmpty then none
      else (parseSizeUnit r2).map (fun mult =>
        (digitsToNat d1 * 10 ^ d2.length + digitsToNat d2, 10 ^ d2.length, mult))
    | r2 => (parseSizeUnit r2).map (fun mult => (digitsToNat d1, 1, mult))

/-- `parseSizeLimit` (src/unnamed/part_003 lines 682-702): no argument means
one megabyte, the literal `no` (case-insensitive) means no limit at all, an
invalid expression falls back to one megabyte, and otherwise the byte count
is `Math.round(value * unit)`, here computed exactly on rationals. -/
def parseSizeLimit (limitArg : Option String) : Option Nat :=
  match limitArg with
  | none => some 1048576
  | some s =>
    if strToLower s = "no" then none
    else
      match parseSizeExpr s with
      | none => some 1048576
      | some (num, den, mult) => some ((2 * num * mult + den) / (2 * den))

structure SizeLimitResult where
  finalResourcesFiltered : List String
  ignoredDueToSize : List (String × Nat)
deriving DecidableEq

/-- One step of the `applySizeLimit` loop: URLs always pass, a file whose
stat size exceeds the limit moves to the ignored-by-size list, a file at or
under the limit passes, and a thrown `stat` drops the file silently. -/
def sizeStep (env : Env) (lim : Nat)
    (acc : List String × List (String × Nat)) (file : String) :
    List String × List (String × Nat) :=
  if strStartsWithStr "http" file then (acc.1 ++ [file], acc.2)
  else
    match env.statSize file with
    | some sz => if sz > lim then (acc.1, acc.2 ++ [(file, sz)]) else (acc.1 ++ [file], acc.2)
    | none => acc

/-- `applySizeLimit` (src/unnamed/part_003 lines 705-730).  The source
records the ignored size in megabytes for display; the byte count recorded
here carries the same information. -/
def applySizeLimit (env : Env) (filePaths : List String) (sizeLimitBytes : Option Nat) :
    SizeLimitResult :=
  match sizeLimitBytes with
  | none => ⟨filePaths, []⟩
  | some lim =>
    let r := filePaths.foldl (sizeStep env lim) ([], [])
    ⟨r.1, r.2⟩

/-- The pipeline the v1.4.0 `main` runs (resolution, then
`applySizeLimit(finalResources, sizeLimitBytes)`, src/unnamed/part_003
lines 346-362), here entered with the exact-reference resolver of
src/thisismy.js whose bypass branch claim C1 cites. -/
def resolveAndLimitV1 (env : Env) (options : Options) (sizeLimitBytes : Option Nat) :
    SizeLimitResult :=
  applySizeLimit env (resolveResourcesV1 env options).finalResources sizeLimitBytes

/-! ## Change tracking and the watch loop -/

/-- The `prevContentMap` fingerprint table (a JS `Map` keyed by resource):
`map.get(k)`. -/
def mapGet : List (String × String) → String → Option String
  | [], _ => none
  | p :: rest, k => if p.1 = k then some p.2 else mapGet rest k

/-- `map.set(k, v)`: replace in place, else append (JS `Map` keeps
insertion order). -/
def mapSet : List (String × String) → String → String → List (String × String)
  | [], k, v => [(k, v)]
  | p :: rest, k, v => if p.1 = k then (k, v) :: rest else p :: mapSet rest k v

structure HandleChangeResult where
  newMap : List (String × String)
  reported : Bool
deriving DecidableEq

/-- `handleChange` (src/thisismy.js lines 412-421; identically in the
v1.4.0 draft): hash the freshly fetched content, compare with the stored
digest, and on a difference store the new digest first and only then invoke
`askForReRun`.  `reported` records whether the confirmation gate was
reached. -/
def handleChange (resource : String) (fetched : String)
    (prevContentMap : List (String × String)) : HandleChangeResult :=
  let newHash := hashContent fetched
  let oldHash := mapGet prevContentMap resource
  if oldHash ≠ some newHash then
    ⟨mapSet prevContentMap resource newHash, true⟩
  else ⟨prevContentMap, false⟩

/-- The content actually handed to the hash after a fetch: `fetchURL`
(src/thisismy.js lines 241-270) and `getRawResourceContent`
(src/unnamed/part_003 lines 765-774) both catch every failure and return
the empty string, so a failed fetch (`none`) reaches `handleChange` as
`""`. -/
def fetchOutcomeContent : Option String → String
  | some s => s
  | none => ""

/-- `handleChange` as driven by the watch loop, with the fetch outcome made
explicit (`none` = the fetch failed). -/
def handleChangeFetch (resource : String) (outcome : Option String)
    (prevContentMap : List (String × String)) : HandleChangeResult :=
  handleChange resource (fetchOutcomeContent outcome) prevContentMap

/-- Seeding of `prevContentMap` in `startWatching` (src/thisismy.js lines
385-398): each resource's fetched content is hashed and stored. -/
def seedFingerprint (m : List (String × String)) (resource content : String) :
    List (String × String) :=
  mapSet m resource (hashContent content)

/-! ## The confirmation gate -/

inductive GateOutcome where
  | rerun
  | skip
  | exitProcess
deriving DecidableEq

structure GateResult where
  outcome : GateOutcome
  linesRead : Nat
  processExitCode : Option Nat
  reranAll : Bool
deriving DecidableEq

/-- `askForReRun` (src/thisismy.js lines 426-443): an empty changed list
returns at once without reading input; otherwise exactly one line is read,
`y` (case-insensitively) re-runs `processFilesAndUrls` on all resources,
`x` calls `process.exit(0)`, and anything else merely returns. -/
def askForReRun (changedResources : List String) (answer : String) : GateResult :=
  if changedResources.length = 0 then ⟨.skip, 0, none, false⟩
  else if strToLower answer = "y" then ⟨.rerun, 1, none, true⟩
  else if strToLower answer = "x" then ⟨.exitProcess, 1, some 0, false⟩
  else ⟨.skip, 1, none, false⟩

/-! ## The watch-mode exit listener in `run` -/

/-- Whether `run` (src/thisismy.js lines 127-164) reaches the watch block
and installs the stdin line listener: only after resolution produced a
non-empty resource list (else `run` returns early) and only when `-w` was
given. -/
def runInstallsWatchListener (options : Options) (finalResources : List String) : Bool :=
  !finalResources.isEmpty && options.watch

/-- The installed line listener (src/thisismy.js lines 156-163): a line
whose trimmed, lowercased text is `x` calls `process.exit(0)`; the result
is the exit code, `none` when the process keeps running.  The listener
consults nothing but the line itself. -/
def watchLineAction (line : String) : Option Nat :=
  if strToLower (strTrim line) = "x" then some 0 else none

/-! ## Concrete environments used in witnesses and counterexamples -/

/-- A working directory holding one regular file `a.txt` beside an input
list that also names a URL. -/
def envC2 : Env :=
  { globSync := fun pat _ _ => if pat = "a.txt" then ["a.txt"] else []
    existsSync := fun p => p == "a.txt"
    lstatIsFile := fun p => if p = "a.txt" then some true else none
    statSize := fun p => if p = "a.txt" then some 5 else none
    cwd := "/w"
    thisismyignore := none
    gitignore := none }

def optsC2 : Options := { file := ["https://example.com/page", "a.txt"] }

/-- A working directory holding `debug.log` and `important.log` and an
ignore file with a negated rule. -/
def envC3 : Env :=
  { globSync := fun pat _ _ => if pat = "*.log" then ["debug.log", "important.log"] else []
    existsSync := fun _ => true
    lstatIsFile := fun p => if p = "debug.log" || p = "important.log" then some true else none
    statSize := fun _ => none
    cwd := "/w"
    thisismyignore := some "*.log\n!important.log"
    gitignore := none }

def optsC3 : Options := { file := ["*.log"] }

/-- A working directory where only `a.txt` exists, fed duplicated tokens. -/
def envC4 : Env :=
  { globSync := fun pat _ _ => if pat = "a.txt" || pat = "*.txt" then ["a.txt"] else []
    existsSync := fun p => p == "a.txt"
    lstatIsFile := fun p => if p = "a.txt" then some true else none
    statSize := fun _ => none
    cwd := "/w"
    thisismyignore := none
    gitignore := none }

def optsC4 : Options := { file := ["a.txt", "a.txt", "*.txt"] }

/-- The spec's exact-reference example: `README.md` exists, is 10 MB, and an
ignore file excludes `*.md`. -/
def envC1 : Env :=
  { globSync := fun _ _ _ => []
    existsSync := fun p => p == "README.md"
    lstatIsFile := fun p => if p = "README.md" then some true else none
    statSize := fun p => if p = "README.md" then some 10485760 else none
    cwd := "/w"
    thisismyignore := some "*.md"
    gitignore := none }

def optsC1 : Options := { file := ["README.md"] }

/-- A working directory with a 7-byte file and a URL token, for the size
ceiling witness. -/
def envC6 : Env :=
  { globSync := fun _ _ _ => []
    existsSync := fun _ => true
    lstatIsFile := fun p => if p = "big.txt" then some true else none
    statSize := fun p => if p = "big.txt" then some 7 else none
    cwd := "/w"
    thisismyignore := none
    gitignore := none }

def optsC10 : Options := { file := ["a.txt"], watch := true }

/-! ## Helper lemmas -/

theorem mapGet_mapSet_self (m : List (String × String)) (k v : String) :
    mapGet (mapSet m k v) k = some v := by
  induction m with
  | nil => simp [mapSet, mapGet]
  | cons p rest ih =>
    by_cases h : p.1 = k
    · simp [mapSet, mapGet, h]
    · simp [mapSet, mapGet, h, ih]

theorem insertUniq_nodup (l : List String) (x : String) (h : l.Nodup) :
    (insertUniq l x).Nodup := by
  unfold insertUniq
  split
  · exact h
  · next hx =>
    exact List.Nodup.append h (List.nodup_singleton x)
      (by simpa [List.disjoint_singleton] using hx)

theorem foldl_insertUniq_nodup (l : List String) :
    ∀ acc : List String, acc.Nodup → (l.foldl insertUniq acc).Nodup := by
  induction l with
  | nil => intro acc h; simpa using h
  | cons p rest ih => intro acc h; exact ih _ (insertUniq_nodup acc p h)

theorem dedupFirst_nodup (l : List String) : (dedupFirst l).Nodup :=
  foldl_insertUniq_nodup l [] List.nodup_nil

theorem v14Step_fst_sub (env : Env) (greedy : Bool) (rules : List IgnoreRule)
    (acc : List String × List String × List String) (p : String) :
    (v14Step env greedy rules acc p).1 = acc.1 ∨
    (v14Step env greedy rules acc p).1 = insertUniq acc.1 (pathRelative env.cwd p) := by
  simp only [v14Step]
  split
  · exact Or.inl rfl
  · split
    · exact Or.inl rfl
    · split
      · exact Or.inr rfl
      · exact Or.inl rfl

theorem v14_fold_nodup (env : Env) (greedy : Bool) (rules : List IgnoreRule)
    (l : List String) :
    ∀ acc : List String × List String × List String, acc.1.Nodup →
      (l.foldl (v14Step env greedy rules) acc).1.Nodup := by
  induction l with
  | nil => intro acc h; simpa using h
  | cons p rest ih =>
    intro acc h
    rw [List.foldl_cons]
    refine ih _ ?_
    rcases v14Step_fst_sub env greedy rules acc p with he | he
    · rw [he]; exact h
    · rw [he]; exact insertUniq_nodup _ _ h

theorem sizeStep_keep (env : Env) (lim : Nat)
    (acc : List String × List (String × Nat)) (f : String)
    (hkeep : strStartsWithStr "http" f = true ∨
      ∃ sz, env.statSize f = some sz ∧ sz ≤ lim) :
    sizeStep env lim acc f = (acc.1 ++ [f], acc.2) := by
  rcases hkeep with hh | ⟨sz, hsz, hle⟩
  · simp [sizeStep, hh]
  · cases hh2 : strStartsWithStr "http" f
    · have hnlt : ¬ sz > lim := Nat.not_lt.mpr hle
      simp [sizeStep, hh2, hsz, hnlt]
    · simp [sizeStep, hh2]

theorem sizeStep_reject (env : Env) (lim : Nat)
    (acc : List String × List (String × Nat)) (f : String) (sz : Nat)
    (hh : strStartsWithStr "http" f = false)
    (hsz : env.statSize f = some sz) (hgt : sz > lim) :
    sizeStep env lim acc f = (acc.1, acc.2 ++ [(f, sz)]) := by
  simp [sizeStep, hh, hsz, hgt]

theorem sizeStep_fst_sub (env : Env) (lim : Nat)
    (acc : List String × List (String × Nat)) (f : String) :
    (sizeStep env lim acc f).1 = acc.1 ∨
    (sizeStep env lim acc f).1 = acc.1 ++ [f] := by
  simp only [sizeStep]
  split
  · exact Or.inr rfl
  · split
    · split
      · exact Or.inl rfl
      · exact Or.inr rfl
    · exact Or.inl rfl

theorem sizeStep_snd_sub (env : Env) (lim : Nat)
    (acc : List String × List (String × Nat)) (f : String) :
    (sizeStep env lim acc f).2 = acc.2 ∨
    ∃ sz, (sizeStep env lim acc f).2 = acc.2 ++ [(f, sz)] := by
  simp only [sizeStep]
  split
  · exact Or.inl rfl
  · split
    · split
      · next sz _ _ => exact Or.inr ⟨sz, rfl⟩
      · exact Or.inl rfl
    · exact Or.inl rfl

theorem size_fold_kept_mono (env : Env) (lim : Nat) (x : String) (l : List String) :
    ∀ acc : List String × List (String × Nat),
      x ∈ acc.1 → x ∈ (l.foldl (sizeStep env lim) acc).1 := by
  induction l with
  | nil => intro acc h; simpa using h
  | cons p rest ih =>
    intro acc h
    rw [List.foldl_cons]
    apply ih
    rcases sizeStep_fst_sub env lim acc p with he | he
    · rw [he]; exact h
    · rw [he]; exact List.mem_append_left _ h

theorem size_fold_ign_mono (env : Env) (lim : Nat) (x : String) (sz : Nat) (l : List String) :
    ∀ acc : List String × List (String × Nat),
      (x, sz) ∈ acc.2 → (x, sz) ∈ (l.foldl (sizeStep env lim) acc).2 := by
  induction l with
  | nil => intro acc h; simpa using h
  | cons p rest ih =>
    intro acc h
    rw [List.foldl_cons]
    apply ih
    rcases sizeStep_snd_sub env lim acc p with he | ⟨sz2, he⟩
    · rw [he]; exact h
    · rw [he]; exact List.mem_append_left _ h

theorem size_fold_kept (env : Env) (lim : Nat) (x : String)
    (hkeep : strStartsWithStr "http" x = true ∨
      ∃ sz, env.statSize x = some sz ∧ sz ≤ lim) (l : List String) :
    ∀ acc : List String × List (String × Nat),
      x ∈ l → x ∈ (l.foldl (sizeStep env lim) acc).1 := by
  induction l with
  | nil => intro acc h; simp at h
  | cons p rest ih =>
    intro acc hmem
    rw [List.foldl_cons]
    rcases List.mem_cons.mp hmem with heq | htl
    · subst heq
      apply size_fold_kept_mono
      rw [sizeStep_keep env lim acc x hkeep]
      exact List.mem_append_right _ (by simp)
    · exact ih _ htl

theorem size_fold_rejected (env : Env) (lim : Nat) (x : String) (sz : Nat)
    (hhttp : strStartsWithStr "http" x = false)
    (hsz : env.statSize x = some sz) (hgt : sz > lim) (l : List String) :
    ∀ acc : List String × List (String × Nat),
      (x ∉ acc.1 → x ∉ (l.foldl (sizeStep env lim) acc).1) ∧
      (x ∈ l → (x, sz) ∈ (l.foldl (sizeStep env lim) acc).2) := by
  induction l with
  | nil => intro acc; exact ⟨fun h => by simpa using h, fun h => by simp at h⟩
  | cons p rest ih =>
    intro acc
    constructor
    · intro hnot
      rw [List.foldl_cons]
      refine (ih _).1 ?_
      by_cases hpx : p = x
      · subst hpx
        rw [sizeStep_reject env lim acc p sz hhttp hsz hgt]
        exact hnot
      · rcases sizeStep_fst_sub env lim acc p with he | he
        · rw [he]; exact hnot
        · rw [he]
          intro hc
          rcases List.mem_append.mp hc with h1 | h1
          · exact hnot h1
          · have hxp : x = p := by simpa using h1
            exact hpx hxp.symm
    · intro hmem
      rw [List.foldl_cons]
      rcases List.mem_cons.mp hmem with heq | htl
      · subst heq
        apply size_fold_ign_mono
        rw [sizeStep_reject env lim acc x sz hhttp hsz hgt]
        exact List.mem_append_right _ (by simp)
      · exact (ih _).2 htl

theorem sha256hex_empty :
    sha256hex "" = "e3b0c44298fc1c149afbf4c8996fb92427ae41e4649b934ca495991b7852b855" := by
  decide

theorem sha256hex_hello :
    sha256hex "hello" = "2cf24dba5fb0a30e26e83b2ac5b9e29e1b161e5c1fa7425e73043362938b9824" := by
  decide

/-! ## Double-separator bookkeeping for the recursive rewrite -/

theorem lhsDS_starstar (l : List Char) :
    listHasSub ['/', '/'] ('*' :: '*' :: '/' :: l) =
      (isPre ['/'] l || listHasSub ['/', '/'] l) := rfl

theorem lhsDS_dotslash_starstar (l : List Char) :
    listHasSub ['/', '/'] ('.' :: '/' :: '*' :: '*' :: '/' :: l) =
      (isPre ['/'] l || listHasSub ['/', '/'] l) := rfl

theorem lhsDS_dotslash (l : List Char) :
    listHasSub ['/', '/'] ('.' :: '/' :: l) =
      (isPre ['/'] l || listHasSub ['/', '/'] l) := rfl

theorem starstar_not_pre (p : String) (h : strHasSubstr "**" p = false) :
    strStartsWithStr "**/" p = false := by
  unfold strHasSubstr at h
  unfold strStartsWithStr
  cases hd : p.data with
  | nil => rfl
  | cons a rest =>
    cases rest with
    | nil =>
      cases hb : (('*' : Char) == a)
      · show (('*' : Char) == a && isPre ['*', '/'] []) = false
        rw [hb]; rfl
      · show (('*' : Char) == a && isPre ['*', '/'] []) = false
        rw [hb]; rfl
    | cons b rest2 =>
      rw [hd] at h
      cases hb1 : (('*' : Char) == a)
      · show (('*' : Char) == a && isPre ['*', '/'] (b :: rest2)) = false
        rw [hb1]; rfl
      · cases hb2 : (('*' : Char) == b)
        · show (('*' : Char) == a && (('*' : Char) == b && isPre ['/'] rest2)) = false
          rw [hb2]; simp
        · exfalso
          have : listHasSub ['*', '*'] (a :: b :: rest2) = true := by
            have hpre : isPre ['*', '*'] (a :: b :: rest2) = true := by
              show (('*' : Char) == a && (('*' : Char) == b && true)) = true
              rw [hb1, hb2]; rfl
            show (isPre ['*', '*'] (a :: b :: rest2) || listHasSub ['*', '*'] (b :: rest2)) = true
            rw [hpre]; rfl
          rw [this] at h
          exact Bool.true_eq_false.mp h

theorem dotslash_data (p : String) (h : strStartsWithStr "./" p = true) :
    p.data = '.' :: '/' :: p.data.drop 2 := by
  unfold strStartsWithStr at h
  cases hd : p.data with
  | nil => rw [hd] at h; exact absurd h (by decide)
  | cons a rest =>
    cases rest with
    | nil =>
      rw [hd] at h
      have : (('.' : Char) == a && false) = true := h
      simp at this
    | cons b rest2 =>
      rw [hd] at h
      have : (('.' : Char) == a && (('/' : Char) == b && true)) = true := h
      have ha : a = '.' := by
        cases hb : (('.' : Char) == a)
        · rw [hb] at this; simp at this
        · exact (beq_iff_eq.mp hb).symm
      have hb : b = '/' := by
        cases hb2 : (('/' : Char) == b)
        · rw [hb2] at this; simp at this
        · exact (beq_iff_eq.mp hb2).symm
      subst ha; subst hb
      rfl

/-! ## Claim theorems -/

/-- C5 counterexample: the claim that the recursive rewrite never produces a
doubled path separator fails on a token that begins with a path separator:
`/a.txt` contains no `//` yet is rewritten to `**//a.txt`, which does. -/
theorem c5_counterexample :
    rewritePattern true "/a.txt" = "**//a.txt"
    ∧ strHasSubstr "//" "/a.txt" = false
    ∧ strHasSubstr "//" (rewritePattern true "/a.txt") = true := by
  decide

/-- C5 (amended): when recursion is requested, a token containing `**` is
left unchanged, a `./`-prefixed token has the recursive marker inserted
after the `./` (giving `./**/` followed by the rest), and any other token is
prefixed with `**/`; the rewrite introduces no doubled path separator
provided the token does not itself begin with a path separator. -/
theorem c5_recursive_rewrite_amended (p : String) :
    (strHasSubstr "**" p = true → rewritePattern true p = p)
    ∧ (strHasSubstr "**" p = false → strStartsWithStr "./" p = true →
        rewritePattern true p = "./**/" ++ strDropN 2 p)
    ∧ (strHasSubstr "**" p = false → strStartsWithStr "./" p = false →
        rewritePattern true p = "**/" ++ p)
    ∧ (strStartsWithStr "/" p = false → strHasSubstr "//" p = false →
        strHasSubstr "//" (rewritePattern true p) = false) := by
  refine ⟨?_, ?_, ?_, ?_⟩
  · intro hss
    simp [rewritePattern, hss]
  · intro hss hds
    simp [rewritePattern, hss, hds]
  · intro hss hds
    simp [rewritePattern, hss, hds, starstar_not_pre p hss]
  · intro hslash hdd
    cases hss : strHasSubstr "**" p with
    | true => simpa [rewritePattern, hss] using hdd
    | false =>
      cases hds : strStartsWithStr "./" p with
      | true =>
        have hdata := dotslash_data p hds
        have h1 : ("./**/" ++ strDropN 2 p).data =
            '.' :: '/' :: '*' :: '*' :: '/' :: p.data.drop 2 := rfl
        have hdd2 : listHasSub ['/', '/'] p.data = false := hdd
        rw [hdata] at hdd2
        rw [lhsDS_dotslash] at hdd2
        simp only [Bool.or_eq_false_iff] at hdd2
        simp only [rewritePattern, hss, hds]
        show listHasSub ['/', '/'] ("./**/" ++ strDropN 2 p).data = false
        rw [h1, lhsDS_dotslash_starstar, hdd2.1, hdd2.2]
        rfl
      | false =>
        have hdd2 : listHasSub ['/', '/'] p.data = false := hdd
        have hsl : isPre ['/'] p.data = false := hslash
        simp only [rewritePattern, hss, hds, starstar_not_pre p hss]
        show listHasSub ['/', '/'] ("**/" ++ p).data = false
        have h1 : ("**/" ++ p).data = '*' :: '*' :: '/' :: p.data := rfl
        rw [h1, lhsDS_starstar, hsl, hdd2]
        rfl

/-- C5 witness: the amended statement applied to the spec's own example
token `./a.js`. -/
theorem c5_witness :
    strHasSubstr "//" (rewritePattern true "./a.js") = false :=
  (c5_recursive_rewrite_amended "./a.js").2.2.2 (by decide) (by decide)

/-- C7: change detection is digest equality with no normalization; seeding
with some content and re-fetching byte-identical content reports no change,
the spec's trailing-space example reports a change, a detected change
stores the new digest (before the operator prompt is issued, which is why
an immediate re-evaluation of the same content reports nothing), and a
reported change always leaves the fetched content's digest in the table. -/
theorem c7_change_detection :
    (∀ (r c : String) (m : List (String × String)),
      (handleChange r c (seedFingerprint m r c)).reported = false)
    ∧ (handleChange "f" "hello " (seedFingerprint [] "f" "hello")).reported = true
    ∧ (∀ (r c : String) (m : List (String × String)),
        (handleChange r c (handleChange r c m).newMap).reported = false)
    ∧ (∀ (r c : String) (m : List (String × String)),
        (handleChange r c m).reported = true →
          mapGet (handleChange r c m).newMap r = some (hashContent c)) := by
  have heq : ∀ (r c : String) (m : List (String × String)),
      handleChange r c m =
        if mapGet m r ≠ some (hashContent c)
        then ⟨mapSet m r (hashContent c), true⟩ else ⟨m, false⟩ :=
    fun _ _ _ => rfl
  refine ⟨?_, by decide, ?_, ?_⟩
  · intro r c m
    simp [handleChange, seedFingerprint, mapGet_mapSet_self]
  · intro r c m
    by_cases h : mapGet m r = some (hashContent c)
    · have h1 : handleChange r c m = ⟨m, false⟩ := by
        rw [heq, if_neg (by simpa using h)]
      rw [h1]
      show (handleChange r c m).reported = false
      rw [h1]
    · have h1 : handleChange r c m = ⟨mapSet m r (hashContent c), true⟩ := by
        rw [heq, if_pos (by simpa using h)]
      rw [h1]
      show (handleChange r c (mapSet m r (hashContent c))).reported = false
      rw [heq, if_neg (by simp [mapGet_mapSet_self])]
  · intro r c m h
    by_cases hc : mapGet m r = some (hashContent c)
    · have h1 : handleChange r c m = ⟨m, false⟩ := by
        rw [heq, if_neg (by simpa using hc)]
      rw [h1] at h
      simp at h
    · have h1 : handleChange r c m = ⟨mapSet m r (hashContent c), true⟩ := by
        rw [heq, if_pos (by simpa using hc)]
      rw [h1]
      simp [mapGet_mapSet_self]

/-- C7 witness: the digest-update conjunct of `c7_change_detection`
instantiated at a concrete changed resource. -/
theorem c7_witness :
    mapGet (handleChange "f" "hello " (seedFingerprint [] "f" "hello")).newMap "f"
      = some (hashContent "hello ") :=
  c7_change_detection.2.2.2 "f" "hello " (seedFingerprint [] "f" "hello") (by decide)

/-- C8 counterexample: with a baseline fingerprint for content `hello`, a
failed fetch (which `fetchURL` catches and converts to the empty string) is
itself reported as a change and the stored fingerprint is overwritten with
the digest of the empty string — contradicting the claim that a fetch
failure leaves the fingerprint unchanged and is never recorded as new
content. -/
theorem c8_counterexample :
    (handleChangeFetch "https://u" none (seedFingerprint [] "https://u" "hello")).reported = true
    ∧ mapGet (handleChangeFetch "https://u" none
        (seedFingerprint [] "https://u" "hello")).newMap "https://u" = some (hashContent "")
    ∧ hashContent "" ≠ hashContent "hello" := by
  refine ⟨by decide, by decide, by decide⟩

/-- C8 (amended): a failed fetch is caught and coerced to empty content,
which is hashed and compared like any other content: when the stored
fingerprint already equals the empty-content digest nothing is reported,
and otherwise the failure is reported as a change and the stored
fingerprint becomes the empty-content digest (so only the next comparison,
not the failure handling, consults the true content again). -/
theorem c8_fetch_failure_amended (r : String) (m : List (String × String)) :
    (mapGet m r = some (hashContent "") →
      handleChangeFetch r none m = ⟨m, false⟩)
    ∧ (mapGet m r ≠ some (hashContent "") →
        (handleChangeFetch r none m).reported = true
        ∧ mapGet (handleChangeFetch r none m).newMap r = some (hashContent "")) := by
  constructor
  · intro h
    simp [handleChangeFetch, handleChange, fetchOutcomeContent, h]
  · intro h
    have heq : handleChangeFetch r none m =
        if mapGet m r ≠ some (hashContent "")
        then ⟨mapSet m r (hashContent ""), true⟩ else ⟨m, false⟩ := rfl
    rw [heq, if_pos h]
    exact ⟨rfl, mapGet_mapSet_self m r (hashContent "")⟩

/-- C8 witness: the amended statement applied to an empty fingerprint
table. -/
theorem c8_witness :
    (handleChangeFetch "u" none []).reported = true :=
  ((c8_fetch_failure_amended "u" []).2 (by decide)).1

/-- C9: the confirmation gate returns skip at once, reading no input line,
when the changed list is empty; otherwise it reads exactly one line,
interpreted case-insensitively: `y` re-runs processing over all resources,
`x` exits the whole process with code 0, anything else skips. -/
theorem c9_confirmation_gate (changed : List String) (answer : String) :
    (changed = [] → askForReRun changed answer = ⟨.skip, 0, none, false⟩)
    ∧ (changed ≠ [] → (askForReRun changed answer).linesRead = 1
        ∧ (strToLower answer = "y" → askForReRun changed answer = ⟨.rerun, 1, none, true⟩)
        ∧ (strToLower answer = "x" →
            askForReRun changed answer = ⟨.exitProcess, 1, some 0, false⟩)
        ∧ (strToLower answer ≠ "y" → strToLower answer ≠ "x" →
            askForReRun changed answer = ⟨.skip, 1, none, false⟩)) := by
  constructor
  · intro h
    subst h
    simp [askForReRun]
  · intro h
    have hlen : ¬ changed.length = 0 := by
      simpa [List.length_eq_zero] using h
    refine ⟨?_, ?_, ?_, ?_⟩
    · unfold askForReRun
      rw [if_neg hlen]
      split
      · rfl
      · split
        · rfl
        · rfl
    · intro hy
      simp [askForReRun, hlen, hy]
    · intro hx
      simp [askForReRun, hlen, hx]
    · intro hny hnx
      simp [askForReRun, hlen, hny, hnx]

/-- C9 witness: a non-empty changed list and the uppercase exit token. -/
theorem c9_witness :
    askForReRun ["a.txt"] "X" = ⟨.exitProcess, 1, some 0, false⟩ :=
  ((c9_confirmation_gate ["a.txt"] "X").2 (by decide)).2.2.1 (by decide)

/-- C10: once watch mode survives resolution with a non-empty resource
list, `run` installs the stdin line listener, and that listener — a
function of the input line alone, independent of any pending confirmation —
exits the process with code 0 exactly on lines whose trimmed, lowercased
text is `x`. -/
theorem c10_watch_exit_listener (options : Options) (finalResources : List String)
    (line : String) (hw : options.watch = true) (hne : finalResources ≠ []) :
    runInstallsWatchListener options finalResources = true
    ∧ (strToLower (strTrim line) = "x" → watchLineAction line = some 0)
    ∧ (strToLower (strTrim line) ≠ "x" → watchLineAction line = none) := by
  refine ⟨?_, ?_, ?_⟩
  · simp [runInstallsWatchListener, hw, hne]
  · intro h
    simp [watchLineAction, h]
  · intro h
    simp [watchLineAction, h]

/-- C10 witness: a watch-mode run over one file and the input line
`" X "`. -/
theorem c10_witness :
    watchLineAction " X " = some 0 :=
  (c10_watch_exit_listener optsC10 ["a.txt"] " X " rfl (by decide)).2.1 (by decide)

theorem resolveV1_exact (env : Env) (opts : Options) (t : String)
    (hf : opts.file = [t]) (hstar : strHasChar '*' t = false)
    (hhttp : strStartsWithStr "http" t = false) (hg : opts.greedy = false) :
    resolveResourcesV1 env opts =
      if env.existsSync t then ⟨[t], true, []⟩ else ⟨[], true, []⟩ := by
  unfold resolveResourcesV1
  rw [hf]
  simp [hstar, hhttp, hg]

theorem applySizeLimit_some (env : Env) (l : List String) (lim : Nat) :
    applySizeLimit env l (some lim) =
      ⟨(l.foldl (sizeStep env lim) ([], [])).1, (l.foldl (sizeStep env lim) ([], [])).2⟩ := rfl

/-- C1: a single wildcard-free non-URL token is an exact reference: when the
file exists, resolution returns exactly that token — for every environment,
hence whatever the default rules, `.thisismyignore` or `.gitignore` contain
(the ignore policy is bypassed) — and when it does not exist resolution
returns the empty list rather than an error; the size ceiling is not
bypassed: piping the result through `applySizeLimit` still drops the file
when its size exceeds the configured ceiling and keeps it otherwise. -/
theorem c1_exact_reference_bypass (env : Env) (opts : Options) (t : String) (N s : Nat)
    (hf : opts.file = [t]) (hstar : strHasChar '*' t = false)
    (hhttp : strStartsWithStr "http" t = false) (hg : opts.greedy = false) :
    (env.existsSync t = false → (resolveResourcesV1 env opts).finalResources = [])
    ∧ (env.existsSync t = true → (resolveResourcesV1 env opts).finalResources = [t])
    ∧ (env.existsSync t = true → env.statSize t = some s → s ≤ N →
        resolveAndLimitV1 env opts (some N) = ⟨[t], []⟩)
    ∧ (env.existsSync t = true → env.statSize t = some s → s > N →
        resolveAndLimitV1 env opts (some N) = ⟨[], [(t, s)]⟩) := by
  have hres := resolveV1_exact env opts t hf hstar hhttp hg
  refine ⟨?_, ?_, ?_, ?_⟩
  · intro hex
    rw [hres, if_neg (by simp [hex])]
  · intro hex
    rw [hres, if_pos hex]
  · intro hex hsz hle
    unfold resolveAndLimitV1
    rw [hres, if_pos hex]
    show applySizeLimit env [t] (some N) = ⟨[t], []⟩
    rw [applySizeLimit_some]
    simp only [List.foldl_cons, List.foldl_nil]
    rw [sizeStep_keep env N ([], []) t (Or.inr ⟨s, hsz, hle⟩)]
    rfl
  · intro hex hsz hgt
    unfold resolveAndLimitV1
    rw [hres, if_pos hex]
    show applySizeLimit env [t] (some N) = ⟨[], [(t, s)]⟩
    rw [applySizeLimit_some]
    simp only [List.foldl_cons, List.foldl_nil]
    rw [sizeStep_reject env N ([], []) t s hhttp hsz hgt]
    rfl

/-- C1 witness: the spec's own example — a single token `README.md` with an
ignore file excluding `*.md` is still resolved, but a 10 MB size against a
1 MB ceiling still excludes it. -/
theorem c1_witness :
    (resolveResourcesV1 envC1 optsC1).finalResources = ["README.md"]
    ∧ resolveAndLimitV1 envC1 optsC1 (some 1048576) = ⟨[], [("README.md", 10485760)]⟩ := by
  have h := c1_exact_reference_bypass envC1 optsC1 "README.md" 1048576 10485760
    rfl (by decide) (by decide) rfl
  exact ⟨h.2.1 (by decide), h.2.2.2 (by decide) (by decide) (by decide)⟩

/-- C2 (code bug in src/thisismy.js): despite the comment that URLs are
always included as is, the draft relativizes every collected resource
against the working directory — mangling the URL, whose `//` collapses —
and then drops it in the regular-file `lstat` filter, so the URL is absent
from the final list. -/
theorem c2_url_dropped_in_v1 :
    (resolveResourcesV1 envC2 optsC2).finalResources = ["a.txt"]
    ∧ "https://example.com/page" ∉ (resolveResourcesV1 envC2 optsC2).finalResources
    ∧ pathRelative envC2.cwd "https://example.com/page" = "https:/example.com/page" := by
  refine ⟨by decide, by decide, by decide⟩

/-- C3: gitignore negation semantics through the v1.4.0 resolver — with an
ignore file holding `*.log` then `!important.log` and a pattern matching
both files, `debug.log` is excluded (and lands in the ignored diagnostic
list) while `important.log` is re-included; the underlying predicate
behaves likewise. -/
theorem c3_negation_reinclude :
    (resolveResourcesV14 envC3 optsC3).finalResources = ["important.log"]
    ∧ "debug.log" ∉ (resolveResourcesV14 envC3 optsC3).finalResources
    ∧ (resolveResourcesV14 envC3 optsC3).ignoredFiles = ["debug.log"]
    ∧ igIgnores (parseIgnoreText "*.log\n!important.log") "debug.log" = true
    ∧ igIgnores (parseIgnoreText "*.log\n!important.log") "important.log" = false := by
  refine ⟨by decide, by decide, by decide, by decide, by decide⟩

/-- C4: for every environment and option bag the v1.4.0 resolver returns a
duplicate-free resource list (it accumulates into an insertion-ordered
set), and the spec's concrete example — tokens `a.txt`, `a.txt`, `*.txt`
with only `a.txt` existing — resolves to exactly one resource. -/
theorem c4_no_duplicates :
    (∀ (env : Env) (opts : Options), (resolveResourcesV14 env opts).finalResources.Nodup)
    ∧ (resolveResourcesV14 envC4 optsC4).finalResources.length = 1 := by
  constructor
  · intro env opts
    simp only [resolveResourcesV14]
    exact v14_fold_nodup _ _ _ _ _ (dedupFirst_nodup _)
  · decide

/-- C6: a file of exactly the ceiling size is retained and a strictly
larger file moves to the ignored-by-size list and out of the final set; the
no-limit sentinel (`parseSizeLimit "no"` yields no ceiling) disables the
filter entirely, and URL resources always pass. -/
theorem c6_size_ceiling (env : Env) (l : List String) (f u : String) (N sz : Nat)
    (hf : strStartsWithStr "http" f = false) (hsz : env.statSize f = some sz)
    (hu : strStartsWithStr "http" u = true) :
    parseSizeLimit (some "no") = none
    ∧ applySizeLimit env l none = ⟨l, []⟩
    ∧ (f ∈ l → sz ≤ N → f ∈ (applySizeLimit env l (some N)).finalResourcesFiltered)
    ∧ (f ∈ l → sz > N →
        f ∉ (applySizeLimit env l (some N)).finalResourcesFiltered
        ∧ (f, sz) ∈ (applySizeLimit env l (some N)).ignoredDueToSize)
    ∧ (u ∈ l → u ∈ (applySizeLimit env l (some N)).finalResourcesFiltered) := by
  refine ⟨by decide, rfl, ?_, ?_, ?_⟩
  · intro hm hle
    show f ∈ (l.foldl (sizeStep env N) ([], [])).1
    exact size_fold_kept env N f (Or.inr ⟨sz, hsz, hle⟩) l ([], []) hm
  · intro hm hgt
    constructor
    · show f ∉ (l.foldl (sizeStep env N) ([], [])).1
      exact (size_fold_rejected env N f sz hf hsz hgt l ([], [])).1 (by simp)
    · show (f, sz) ∈ (l.foldl (sizeStep env N) ([], [])).2
      exact (size_fold_rejected env N f sz hf hsz hgt l ([], [])).2 hm
  · intro hm
    show u ∈ (l.foldl (sizeStep env N) ([], [])).1
    exact size_fold_kept env N u (Or.inl hu) l ([], []) hm

/-- C6 witness: a 7-byte file against a 5-byte ceiling beside a URL. -/
theorem c6_witness :
    "big.txt" ∉ (applySizeLimit envC6 ["big.txt", "https://x"] (some 5)).finalResourcesFiltered
    ∧ ("big.txt", 7) ∈ (applySizeLimit envC6 ["big.txt", "https://x"] (some 5)).ignoredDueToSize
    ∧ "https://x" ∈ (applySizeLimit envC6 ["big.txt", "https://x"] (some 5)).finalResourcesFiltered
    ∧ parseSizeLimit (some "no") = none := by
  have h := c6_size_ceiling envC6 ["big.txt", "https://x"] "big.txt" "https://x" 5 7
    (by decide) (by decide) (by decide)
  exact ⟨(h.2.2.2.1 (by decide) (by decide)).1, (h.2.2.2.1 (by decide) (by decide)).2,
    h.2.2.2.2 (by decide), h.1⟩

end Thisismy
